import Mathlib

/-!
Shallow embedding of the `cw-huahua-name` contract (`src/contract.rs`), a
fee-gated CosmWasm name registry, together with proofs checking the
natural-language specification against it.

Modelling conventions:
* Rust `String`/`&str` values are Lean `String`s; Rust `str::len` (the UTF-8
  byte length) is `rustLen`.
* `cosmwasm_std::Addr` is a plain string (`Addr`); host address validation
  (`deps.api.addr_validate`) is an external capability, modelled as a
  parameter `api : String → Option Addr` (`none` = validation failure,
  `some a` = the validated, possibly normalised, address).
* Contract storage (`CONFIG : Item<Config>`, `NAME_RESOLVER : Map<&[u8],
  NameRecord>`) is a record `ContractState`.  The map is keyed by the raw
  bytes of the name; since UTF-8 encoding is injective we key it by the name
  string itself.  `Item.load` on missing data is a `Std` error.
* Each entry point is a function from the pre-state to an `ExecResult` that
  carries the post-state, mirroring the Rust control flow statement by
  statement; `cw_storage_plus::Map::update` persists only when its closure
  returns `Ok`, which is modelled inline.
* Coin amounts (`Uint128`) are `Nat`: the contract only compares them, so no
  overflow is possible.
-/

namespace HuahuaName

/-- A validated bech32 address (`cosmwasm_std::Addr`), modelled as its
underlying string. -/
abbrev Addr := String

/-- The `cosmwasm_std::Coin`: a denomination plus a non-negative amount. -/
structure Coin where
  denom : String
  amount : Nat
deriving DecidableEq, Repr

/-- The `Config` from `src/state.rs`, as used by `src/contract.rs`: registry
owner plus the three optional prices (`None` = the operation is free). -/
structure Config where
  owner : Addr
  purchase_price : Option Coin
  transfer_price : Option Coin
  edit_price : Option Coin
deriving DecidableEq, Repr

/-- The `NameRecord` from `src/state.rs`, as used by `src/contract.rs`. -/
structure NameRecord where
  owner : Addr
  bio : String
  website : String
deriving DecidableEq, Repr

/-- The `ContractError` from `src/error.rs`; the variants and their fields are
the ones constructed in `src/contract.rs` (plus `Std` for propagated
`cosmwasm_std::StdError`s and the fee-gate error of §4.2 of the spec). -/
inductive ContractError where
  | Std (msg : String)
  | Unauthorized
  | InsufficientFunds
  | NameTaken (name : String)
  | NameNotExists (name : String)
  | NameTooShort (length : Nat) (min_length : Nat)
  | NameTooLong (length : Nat) (max_length : Nat)
  | InvalidCharacter (c : Char)
  | BioTooLong (bio_length : Nat) (max_length : Nat)
  | WebsiteTooLong (website_length : Nat) (max_length : Nat)
deriving DecidableEq, Repr

/-- The `cosmwasm_std::MessageInfo`: the caller and the funds attached to the
request. -/
structure MessageInfo where
  sender : Addr
  funds : List Coin

/-- The contract's durable storage: the singleton `CONFIG` item (`none`
before `instantiate` has run) and the `NAME_RESOLVER` map from names to
records. -/
structure ContractState where
  config : Option Config
  name_resolver : String → Option NameRecord

/-- Storage before `instantiate` has run: no config, no records. -/
def emptyState : ContractState :=
  { config := none, name_resolver := fun _ => none }

/-- The `NAME_RESOLVER.save`: store `r` under `key`, leaving other keys alone. -/
def setRecord (s : ContractState) (key : String) (r : NameRecord) : ContractState :=
  { s with name_resolver := fun k => if k = key then some r else s.name_resolver k }

/-- The `CONFIG.save` / the write of `CONFIG.update`. -/
def setConfig (s : ContractState) (c : Config) : ContractState :=
  { s with config := some c }

/-! Constants from the head of `src/contract.rs`. -/

def MIN_NAME_LENGTH : Nat := 3
def MAX_NAME_LENGTH : Nat := 30
def MAX_BIO_LENGTH : Nat := 200
def MAX_WEBSITE_LENGTH : Nat := 100

/-- Rust `str::len`: the length of the UTF-8 encoding of the string, in
bytes. -/
def rustLen (s : String) : Nat := (s.data.map Char.utf8Size).sum

/-- The `invalid_char` from `src/contract.rs`: a character is valid iff it is an
ASCII digit, an ASCII lowercase letter, or a hyphen. -/
def invalid_char (c : Char) : Bool :=
  let is_valid := c.isDigit || c.isLower || c == '-'
  !is_valid

/-- The `validate_name` from `src/contract.rs`: byte-length window
[`MIN_NAME_LENGTH`, `MAX_NAME_LENGTH`], then report the first invalid
character (Rust's `name.find(invalid_char)` returns the byte position of the
first character satisfying the predicate and the code re-decodes the full
character at that position, which is exactly the first invalid element of
the character sequence). -/
def validate_name (name : String) : Except ContractError Unit :=
  let length := rustLen name
  if rustLen name < MIN_NAME_LENGTH then
    .error (.NameTooShort length MIN_NAME_LENGTH)
  else if rustLen name > MAX_NAME_LENGTH then
    .error (.NameTooLong length MAX_NAME_LENGTH)
  else
    match name.data.find? (fun c => invalid_char c) with
    | none => .ok ()
    | some c => .error (.InvalidCharacter c)

/-- Modelled from the spec: `assert_sent_sufficient_coin` lives in
`src/coin_helpers.rs`, which is not among the provided sources.  Spec §4.2:
if the required price is absent the gate always passes; if present as
`(denom, amount)` it passes iff the attached funds contain an entry with
that denomination and an amount ≥ the required amount, and fails with the
economic error (`InsufficientFunds`) otherwise; overpayment is accepted. -/
def assert_sent_sufficient_coin (sent : List Coin) (required : Option Coin) :
    Except ContractError Unit :=
  match required with
  | none => .ok ()
  | some req =>
    if sent.any (fun c => c.denom == req.denom && decide (req.amount ≤ c.amount)) then
      .ok ()
    else
      .error .InsufficientFunds

deriving instance DecidableEq for Except

/-- Result of an execute entry point: the response payload is irrelevant to
the stored state, so we keep only the post-state, on success and on error
alike (an error that has not written anything carries the pre-state). -/
inductive ExecResult where
  | ok (state : ContractState)
  | err (e : ContractError) (state : ContractState)

/-- The post-state of an execution result. -/
def ExecResult.state : ExecResult → ContractState
  | .ok s => s
  | .err _ s => s

/-- The `InstantiateMsg` from `src/msg.rs`, with exactly the fields
`src/contract.rs` reads from it: `admin`, `purchase_price`,
`transfer_price`, `edit_price`. -/
structure InstantiateMsg where
  admin : Option String
  purchase_price : Option Coin
  transfer_price : Option Coin
  edit_price : Option Coin

/-- The `instantiate` from `src/contract.rs`: owner is the validated `admin`
when present and valid, else the sender (a failed validation is swallowed by
`.ok()` and falls back to the sender); the three prices are copied from the
message; the config is saved.  The cw2 version bookkeeping does not touch
`CONFIG` or `NAME_RESOLVER` and is out of scope (§1 of the spec). -/
def instantiate (api : String → Option Addr) (s : ContractState)
    (info : MessageInfo) (msg : InstantiateMsg) : ContractState :=
  let owner := (msg.admin.bind fun a => api a).getD info.sender
  setConfig s
    { owner := owner
    , purchase_price := msg.purchase_price
    , transfer_price := msg.transfer_price
    , edit_price := msg.edit_price }

/-- The `execute_register` from `src/contract.rs`. -/
def execute_register (s : ContractState) (info : MessageInfo)
    (name bio website : String) : ExecResult :=
  match validate_name name with
  | .error e => .err e s
  | .ok _ =>
  match s.config with
  | none => .err (.Std "cw_huahua_name Config not found") s
  | some config =>
  match assert_sent_sufficient_coin info.funds config.purchase_price with
  | .error e => .err e s
  | .ok _ =>
    let bio_length := rustLen bio
    let website_length := rustLen website
    if bio_length > MAX_BIO_LENGTH then
      .err (.BioTooLong bio_length MAX_BIO_LENGTH) s
    else if website_length > MAX_WEBSITE_LENGTH then
      .err (.WebsiteTooLong website_length MAX_WEBSITE_LENGTH) s
    else if (s.name_resolver name).isSome then
      .err (.NameTaken name) s
    else
      .ok (setRecord s name { owner := info.sender, bio := bio, website := website })

/-- The `execute_transfer` from `src/contract.rs`.  `NAME_RESOLVER.update` reads
the record under the key, applies the closure, and persists only on `Ok`;
the closure is inlined here. -/
def execute_transfer (api : String → Option Addr) (s : ContractState)
    (info : MessageInfo) (name to_addr : String) : ExecResult :=
  match s.config with
  | none => .err (.Std "cw_huahua_name Config not found") s
  | some config =>
  match assert_sent_sufficient_coin info.funds config.transfer_price with
  | .error e => .err e s
  | .ok _ =>
  match api to_addr with
  | none => .err (.Std "addr_validate failed") s
  | some new_owner =>
  match s.name_resolver name with
  | some record =>
    if info.sender ≠ record.owner then
      .err .Unauthorized s
    else
      .ok (setRecord s name { record with owner := new_owner })
  | none => .err (.NameNotExists name) s

/-- The `execute_edit` from `src/contract.rs`: fee gate on `edit_price`, then a
`NAME_RESOLVER.update` whose closure checks ownership first and the
bio/website length bounds after it, replacing only `bio` and `website`. -/
def execute_edit (s : ContractState) (info : MessageInfo)
    (name bio website : String) : ExecResult :=
  match s.config with
  | none => .err (.Std "cw_huahua_name Config not found") s
  | some config =>
  match assert_sent_sufficient_coin info.funds config.edit_price with
  | .error e => .err e s
  | .ok _ =>
    let bio_length := rustLen bio
    let website_length := rustLen website
    match s.name_resolver name with
    | some record =>
      if info.sender ≠ record.owner then
        .err .Unauthorized s
      else if bio_length > MAX_BIO_LENGTH then
        .err (.BioTooLong bio_length MAX_BIO_LENGTH) s
      else if website_length > MAX_WEBSITE_LENGTH then
        .err (.WebsiteTooLong website_length MAX_WEBSITE_LENGTH) s
      else
        .ok (setRecord s name { record with bio := bio, website := website })
    | none => .err (.NameNotExists name) s

/-- The `execute_edit_conf` from `src/contract.rs`: fee gate against the
*current* `transfer_price`, then the owner check, then `CONFIG.update`
overwriting all three prices (the closure keeps `owner` and replaces the
three price fields unconditionally). -/
def execute_edit_conf (s : ContractState) (info : MessageInfo)
    (purchase_price transfer_price edit_price : Option Coin) : ExecResult :=
  match s.config with
  | none => .err (.Std "cw_huahua_name Config not found") s
  | some get_config =>
  match assert_sent_sufficient_coin info.funds get_config.transfer_price with
  | .error e => .err e s
  | .ok _ =>
    if get_config.owner ≠ info.sender then
      .err .Unauthorized s
    else
      .ok (setConfig s
        { get_config with
            purchase_price := purchase_price
          , transfer_price := transfer_price
          , edit_price := edit_price })

/-- The `execute_refund` from `src/contract.rs`: the contract balance comes from
the external querier (parameter `balance`); the handler only checks that the
caller is the config owner and emits a bank message — it never writes to
storage. -/
def execute_refund (balance : List Coin) (s : ContractState)
    (info : MessageInfo) : ExecResult :=
  match s.config with
  | none => .err (.Std "cw_huahua_name Config not found") s
  | some config =>
    if config.owner ≠ info.sender then
      .err .Unauthorized s
    else
      .ok s

/-- The `ExecuteMsg` from `src/msg.rs`, with the variants and fields matched on
in `execute` in `src/contract.rs`. -/
inductive ExecuteMsg where
  | Register (name bio website : String)
  | Transfer (name to_addr : String)
  | Refund
  | Edit (name bio website : String)
  | Editconf (purchase_price transfer_price edit_price : Option Coin)

/-- The `execute` from `src/contract.rs`: dispatch on the message variant. -/
def execute (api : String → Option Addr) (balance : List Coin)
    (s : ContractState) (info : MessageInfo) (msg : ExecuteMsg) : ExecResult :=
  match msg with
  | .Register name bio website => execute_register s info name bio website
  | .Transfer name to_addr => execute_transfer api s info name to_addr
  | .Refund => execute_refund balance s info
  | .Edit name bio website => execute_edit s info name bio website
  | .Editconf purchase_price transfer_price edit_price =>
      execute_edit_conf s info purchase_price transfer_price edit_price

/-- The `ResolveRecordResponse` from `src/msg.rs`, as filled in by
`query_resolver`. -/
structure ResolveRecordResponse where
  address : Option String
  bio : Option String
  website : Option String
deriving DecidableEq, Repr

/-- The `query_resolver` from `src/contract.rs`: three independent
`NAME_RESOLVER.may_load`s of the same key, one per response field. -/
def query_resolver (s : ContractState) (name : String) : ResolveRecordResponse :=
  let address :=
    match s.name_resolver name with
    | some record => some record.owner
    | none => none
  let bio :=
    match s.name_resolver name with
    | some record => some record.bio
    | none => none
  let website :=
    match s.name_resolver name with
    | some record => some record.website
    | none => none
  { address := address, bio := bio, website := website }

/-- The spec's description of resolve (§4.8): ONE lookup of the key, whose
record is projected into the three response fields; all-`None` when the
record is absent.  This is the refinement comparator for `query_resolver`,
written from the spec's words, not from the code. -/
def resolve_spec (s : ContractState) (name : String) : ResolveRecordResponse :=
  match s.name_resolver name with
  | some record =>
      { address := some record.owner, bio := some record.bio, website := some record.website }
  | none => { address := none, bio := none, website := none }

/-! Helper lemmas: every handler that returns an error returns the
pre-state unchanged (each `.err` arm of the translation carries the state
it was entered with, exactly as the Rust early returns fire before the
single storage write of the handler). -/

theorem execute_register_err_eq (s : ContractState) (info : MessageInfo)
    (name bio website : String) (e : ContractError) (s' : ContractState)
    (h : execute_register s info name bio website = .err e s') : s' = s := by
  unfold execute_register at h
  dsimp only at h
  repeat' split at h
  all_goals
    first
    | exact ExecResult.noConfusion h
    | (injection h with h1 h2; exact h2.symm)

theorem execute_transfer_err_eq (api : String → Option Addr)
    (s : ContractState) (info : MessageInfo) (name to_addr : String)
    (e : ContractError) (s' : ContractState)
    (h : execute_transfer api s info name to_addr = .err e s') : s' = s := by
  unfold execute_transfer at h
  repeat' split at h
  all_goals
    first
    | exact ExecResult.noConfusion h
    | (injection h with h1 h2; exact h2.symm)

theorem execute_edit_err_eq (s : ContractState) (info : MessageInfo)
    (name bio website : String) (e : ContractError) (s' : ContractState)
    (h : execute_edit s info name bio website = .err e s') : s' = s := by
  unfold execute_edit at h
  dsimp only at h
  repeat' split at h
  all_goals
    first
    | exact ExecResult.noConfusion h
    | (injection h with h1 h2; exact h2.symm)

theorem execute_edit_conf_err_eq (s : ContractState) (info : MessageInfo)
    (purchase_price transfer_price edit_price : Option Coin)
    (e : ContractError) (s' : ContractState)
    (h : execute_edit_conf s info purchase_price transfer_price edit_price = .err e s') :
    s' = s := by
  unfold execute_edit_conf at h
  repeat' split at h
  all_goals
    first
    | exact ExecResult.noConfusion h
    | (injection h with h1 h2; exact h2.symm)

theorem execute_refund_err_eq (balance : List Coin) (s : ContractState)
    (info : MessageInfo) (e : ContractError) (s' : ContractState)
    (h : execute_refund balance s info = .err e s') : s' = s := by
  unfold execute_refund at h
  repeat' split at h
  all_goals
    first
    | exact ExecResult.noConfusion h
    | (injection h with h1 h2; exact h2.symm)

/-! Name-validator lemmas. -/

/-- Every character of the registry alphabet (ASCII digit, ASCII lowercase
letter, hyphen) occupies exactly one byte in UTF-8. -/
theorem utf8Size_eq_one_of_alphabet (c : Char)
    (h : (c.isDigit || c.isLower || c == '-') = true) : c.utf8Size = 1 := by
  have hv : c.val ≤ 127 := by
    simp only [Char.isDigit, Char.isLower, Bool.or_eq_true, Bool.and_eq_true,
      decide_eq_true_eq, beq_iff_eq] at h
    rcases h with (⟨_, h2⟩ | ⟨_, h2⟩) | rfl
    · exact UInt32.le_trans h2 (by decide)
    · exact UInt32.le_trans h2 (by decide)
    · decide
  unfold Char.utf8Size
  rw [if_pos]
  exact hv

/-- A list of alphabet characters has as many UTF-8 bytes as characters. -/
theorem sum_utf8Size_eq_length (l : List Char)
    (h : ∀ c ∈ l, (c.isDigit || c.isLower || c == '-') = true) :
    (l.map Char.utf8Size).sum = l.length := by
  induction l with
  | nil => rfl
  | cons c cs ih =>
    have hc := utf8Size_eq_one_of_alphabet c (h c (List.mem_cons_self c cs))
    have hcs := ih (fun x hx => h x (List.mem_cons_of_mem c hx))
    simp [hc, hcs, Nat.add_comm]

/-- For names made of alphabet characters, the Rust byte length is the
character count. -/
theorem rustLen_eq_length_of_alphabet (name : String)
    (h : ∀ c ∈ name.data, (c.isDigit || c.isLower || c == '-') = true) :
    rustLen name = name.length := by
  unfold rustLen
  rw [sum_utf8Size_eq_length name.data h]
  rfl

/-- The `invalid_char` agrees with the negation of the alphabet predicate. -/
theorem invalid_char_eq (c : Char) :
    invalid_char c = !(c.isDigit || c.isLower || c == '-') := rfl

/-- C4: every string of 3–30 characters drawn from ASCII lowercase letters,
ASCII digits and hyphens validates; any shorter string (in bytes, which for
this alphabet coincides with characters) fails `NameTooShort`, any longer
one fails `NameTooLong`, and otherwise the first out-of-alphabet character
is reported as a full character in `InvalidCharacter` — also for multi-byte
UTF-8 input (the scan is over the character sequence, never over byte
fragments; the empty string falls under `NameTooShort`). -/
theorem validate_name_spec (name : String) (c : Char) :
    (rustLen name < 3 → validate_name name = .error (.NameTooShort (rustLen name) 3)) ∧
    (rustLen name > 30 → validate_name name = .error (.NameTooLong (rustLen name) 30)) ∧
    (3 ≤ name.length → name.length ≤ 30 →
      (∀ ch ∈ name.data, (ch.isDigit || ch.isLower || ch == '-') = true) →
      validate_name name = .ok ()) ∧
    (3 ≤ rustLen name → rustLen name ≤ 30 →
      name.data.find? (fun ch => !(ch.isDigit || ch.isLower || ch == '-')) = some c →
      validate_name name = .error (.InvalidCharacter c)) := by
  refine ⟨?_, ?_, ?_, ?_⟩
  · intro h
    unfold validate_name MIN_NAME_LENGTH
    dsimp only
    rw [if_pos h]
  · intro h
    unfold validate_name MIN_NAME_LENGTH MAX_NAME_LENGTH
    dsimp only
    rw [if_neg (by omega), if_pos h]
  · intro h3 h30 hvalid
    have hr : rustLen name = name.length := rustLen_eq_length_of_alphabet name hvalid
    have hnone : name.data.find? (fun ch => invalid_char ch) = none := by
      rw [List.find?_eq_none]
      intro x hx
      simp only [invalid_char_eq, hvalid x hx, Bool.not_true, Bool.false_eq_true,
        not_false_eq_true]
    unfold validate_name MIN_NAME_LENGTH MAX_NAME_LENGTH
    dsimp only
    rw [if_neg (by omega), if_neg (by omega), hnone]
  · intro h3 h30 hfind
    have hsome : name.data.find? (fun ch => invalid_char ch) = some c := by
      simpa only [invalid_char_eq] using hfind
    unfold validate_name MIN_NAME_LENGTH MAX_NAME_LENGTH
    dsimp only
    rw [if_neg (by omega), if_neg (by omega), hsome]

/-- Witness for C4: `validate_name` evaluated through each branch of the
specification, via `validate_name_spec` at concrete names. -/
theorem validate_name_spec_witness :
    validate_name "ab" = .error (.NameTooShort 2 3) ∧
    validate_name "" = .error (.NameTooShort 0 3) ∧
    validate_name "abcdefghijklmnopqrstuvwxyz01234" = .error (.NameTooLong 31 30) ∧
    validate_name "alice-1" = .ok () ∧
    validate_name "aBc" = .error (.InvalidCharacter 'B') ∧
    validate_name "ab€xy" = .error (.InvalidCharacter '€') :=
  ⟨(validate_name_spec "ab" 'x').1 (by decide),
   (validate_name_spec "" 'x').1 (by decide),
   (validate_name_spec "abcdefghijklmnopqrstuvwxyz01234" 'x').2.1 (by decide),
   (validate_name_spec "alice-1" 'x').2.2.1 (by decide) (by decide) (by decide),
   (validate_name_spec "aBc" 'B').2.2.2 (by decide) (by decide) (by decide),
   (validate_name_spec "ab€xy" '€').2.2.2 (by decide) (by decide) (by decide)⟩

/-- C2: for every operation handler and every input, an error outcome
leaves the entire contract state — the `Config` item and the whole
name-record table — exactly as it was before the request. -/
theorem execute_error_leaves_state_unchanged (api : String → Option Addr)
    (balance : List Coin) (s : ContractState) (info : MessageInfo)
    (msg : ExecuteMsg) (e : ContractError) (s' : ContractState)
    (h : execute api balance s info msg = .err e s') : s' = s := by
  cases msg with
  | Register name bio website => exact execute_register_err_eq s info name bio website e s' h
  | Transfer name to_addr => exact execute_transfer_err_eq api s info name to_addr e s' h
  | Refund => exact execute_refund_err_eq balance s info e s' h
  | Edit name bio website => exact execute_edit_err_eq s info name bio website e s' h
  | Editconf pp tp ep => exact execute_edit_conf_err_eq s info pp tp ep e s' h

/-- C9: the three-independent-lookup `query_resolver` is extensionally the
single-lookup projection `resolve_spec`; absent records give all-`None`,
present records populate all three fields from that one record (never a
mixed result). -/
theorem query_resolver_equiv_single_lookup (s : ContractState) (name : String) :
    query_resolver s name = resolve_spec s name ∧
    (s.name_resolver name = none →
      query_resolver s name = { address := none, bio := none, website := none }) ∧
    (∀ r : NameRecord, s.name_resolver name = some r →
      query_resolver s name =
        { address := some r.owner, bio := some r.bio, website := some r.website }) := by
  refine ⟨?_, ?_, ?_⟩
  · cases h : s.name_resolver name <;> simp [query_resolver, resolve_spec, h]
  · intro h
    simp [query_resolver, h]
  · intro r h
    simp [query_resolver, h]

/-! Concrete fixtures used by the closed witness theorems. -/

/-- A concrete address validator: rejects the string `"bad"`, accepts
everything else unchanged. -/
def api0 : String → Option Addr := fun a => if a = "bad" then none else some a

/-- A registry configuration with a 10 `uatom` purchase price and free
transfer/edit. -/
def cfg0 : Config :=
  { owner := "admin", purchase_price := some { denom := "uatom", amount := 10 }
  , transfer_price := none, edit_price := none }

/-- A registry configuration with a 10 `uatom` transfer price. -/
def cfg1 : Config :=
  { owner := "admin", purchase_price := none
  , transfer_price := some { denom := "uatom", amount := 10 }, edit_price := none }

/-- The record stored under `"alice-1"` in `st1`. -/
def rec0 : NameRecord := { owner := "alice", bio := "hi", website := "" }

/-- Instantiated state, no registered names. -/
def st0 : ContractState := { config := some cfg0, name_resolver := fun _ => none }

/-- Instantiated state with one record, `"alice-1" ↦ rec0`. -/
def st1 : ContractState :=
  { config := some cfg0
  , name_resolver := fun k => if k = "alice-1" then some rec0 else none }

/-- Instantiated state with config `cfg1` and no registered names. -/
def st2 : ContractState := { config := some cfg1, name_resolver := fun _ => none }

/-- A 201-character bio, one over the `MAX_BIO_LENGTH` bound. -/
def longBio : String := { data := List.replicate 201 'a' }

/-- A 101-character website, one over the `MAX_WEBSITE_LENGTH` bound. -/
def longWebsite : String := { data := List.replicate 101 'w' }

/-- Witness for C2: a register request against a state whose purchase price
is 10 `uatom`, with no funds attached, errors and returns the pre-state. -/
theorem execute_error_leaves_state_unchanged_witness :
    execute api0 [] st0 { sender := "bob", funds := [] } (.Register "abc" "hi" "") =
      .err .InsufficientFunds st0 ∧ st0 = st0 :=
  ⟨rfl, execute_error_leaves_state_unchanged api0 [] st0 { sender := "bob", funds := [] }
    (.Register "abc" "hi" "") .InsufficientFunds st0 rfl⟩

/-- Witness for C9: the equivalence and both lookup branches evaluated on a
state holding the record `rec0` under `"alice-1"` and on one holding
nothing. -/
theorem query_resolver_equiv_single_lookup_witness :
    query_resolver st1 "alice-1" = resolve_spec st1 "alice-1" ∧
    query_resolver st0 "alice-1" = { address := none, bio := none, website := none } ∧
    query_resolver st1 "alice-1" =
      { address := some "alice", bio := some "hi", website := some "" } :=
  ⟨(query_resolver_equiv_single_lookup st1 "alice-1").1,
   (query_resolver_equiv_single_lookup st0 "alice-1").2.1 rfl,
   (query_resolver_equiv_single_lookup st1 "alice-1").2.2 rec0 rfl⟩

/-- C3, counterexample: instantiating with a message that carries a
purchase price stores that price — the saved configuration does NOT have
all three prices unset, refuting "all three prices start unset (free)". -/
theorem instantiate_prices_counterexample :
    (instantiate api0 emptyState { sender := "creator", funds := [] }
        { admin := none, purchase_price := some { denom := "uatom", amount := 10 }
        , transfer_price := none, edit_price := none }).config =
      some { owner := "creator", purchase_price := some { denom := "uatom", amount := 10 }
           , transfer_price := none, edit_price := none } ∧
    some { denom := "uatom", amount := 10 } ≠ (none : Option Coin) :=
  ⟨rfl, by decide⟩

/-- C3 as amended: the saved owner is the provided admin when it is present
and validates, else the deployer (also when a provided admin fails
validation); the three prices are copied from the instantiate message
(`None` in the message means free) rather than starting unset
unconditionally; the record table is untouched. -/
theorem instantiate_config_spec (api : String → Option Addr) (s : ContractState)
    (info : MessageInfo) (msg : InstantiateMsg) :
    (instantiate api s info msg).config =
      some { owner :=
               match msg.admin with
               | none => info.sender
               | some a =>
                 match api a with
                 | none => info.sender
                 | some addr => addr
           , purchase_price := msg.purchase_price
           , transfer_price := msg.transfer_price
           , edit_price := msg.edit_price } ∧
    (instantiate api s info msg).name_resolver = s.name_resolver := by
  refine ⟨?_, rfl⟩
  unfold instantiate setConfig
  cases hadm : msg.admin with
  | none => rfl
  | some a =>
    cases hapi : api a with
    | none => simp [hapi]
    | some addr => simp [hapi]

/-- C1: if a record already exists under `name` and the earlier register
checks pass (valid name, fee gate satisfied, bio/website within bounds),
registration fails with exactly `NameTaken{name}` and returns the pre-state
unchanged; moreover register can never succeed on a taken name, whatever
the caller, funds, or fields — so at most one record ever exists per key. -/
theorem register_existing_name_taken (s : ContractState) (info : MessageInfo)
    (name bio website : String) (r : NameRecord) (cfg : Config)
    (hrec : s.name_resolver name = some r)
    (hcfg : s.config = some cfg)
    (hname : validate_name name = .ok ())
    (hfee : assert_sent_sufficient_coin info.funds cfg.purchase_price = .ok ())
    (hbio : rustLen bio ≤ MAX_BIO_LENGTH)
    (hweb : rustLen website ≤ MAX_WEBSITE_LENGTH) :
    execute_register s info name bio website = .err (.NameTaken name) s ∧
    ∀ (s₂ : ContractState) (info₂ : MessageInfo) (bio₂ website₂ : String) (r₂ : NameRecord),
      s₂.name_resolver name = some r₂ →
      ∀ s', execute_register s₂ info₂ name bio₂ website₂ ≠ .ok s' := by
  constructor
  · have h1 : ¬ rustLen bio > MAX_BIO_LENGTH := by omega
    have h2 : ¬ rustLen website > MAX_WEBSITE_LENGTH := by omega
    simp only [execute_register, hname, hcfg, hfee, hrec, if_neg h1, if_neg h2,
      Option.isSome_some, if_pos]
  · intro s₂ info₂ bio₂ website₂ r₂ h₂ s' hok
    unfold execute_register at hok
    dsimp only at hok
    rw [h₂] at hok
    repeat' split at hok
    all_goals
      first
      | exact ExecResult.noConfusion hok
      | simp_all

/-- Witness for C1: re-registering `"alice-1"`, already held by `rec0`,
with sufficient fee and valid fields, fails `NameTaken` and leaves the
state as it was. -/
theorem register_existing_name_taken_witness :
    execute_register st1 { sender := "bob", funds := [{ denom := "uatom", amount := 10 }] }
        "alice-1" "bb" "ww" = .err (.NameTaken "alice-1") st1 :=
  (register_existing_name_taken st1
    { sender := "bob", funds := [{ denom := "uatom", amount := 10 }] }
    "alice-1" "bb" "ww" rec0 cfg0 rfl rfl (by decide) (by decide) (by decide) (by decide)).1

/-- C5: for a transfer that passes the fee gate (against the stored
`transfer_price`) and whose destination validates: a missing record fails
`NameNotExists{name}`; an existing record with a caller other than its
owner fails `Unauthorized`; otherwise the record's `owner` is replaced by
the validated new identity with `bio` and `website` unchanged, and the
updated record is persisted under the same key (all error outcomes return
the pre-state). -/
theorem transfer_spec (api : String → Option Addr) (s : ContractState)
    (info : MessageInfo) (name to_addr : String) (cfg : Config) (new_owner : Addr)
    (hcfg : s.config = some cfg)
    (hfee : assert_sent_sufficient_coin info.funds cfg.transfer_price = .ok ())
    (hapi : api to_addr = some new_owner) :
    (s.name_resolver name = none →
      execute_transfer api s info name to_addr = .err (.NameNotExists name) s) ∧
    (∀ r : NameRecord, s.name_resolver name = some r → info.sender ≠ r.owner →
      execute_transfer api s info name to_addr = .err .Unauthorized s) ∧
    (∀ r : NameRecord, s.name_resolver name = some r → info.sender = r.owner →
      execute_transfer api s info name to_addr =
        .ok (setRecord s name { owner := new_owner, bio := r.bio, website := r.website })) := by
  refine ⟨?_, ?_, ?_⟩
  · intro hnone
    simp only [execute_transfer, hcfg, hfee, hapi, hnone]
  · intro r hrec hne
    simp only [execute_transfer, hcfg, hfee, hapi, hrec, if_pos hne]
  · intro r hrec heq
    simp only [execute_transfer, hcfg, hfee, hapi, hrec, if_neg (not_not_intro heq)]

/-- Witness for C5: all three transfer branches on `st1` (transfer is free
in `cfg0`): unknown name, non-owner caller, and the owner transferring
`"alice-1"` to `"frank"` with `bio`/`website` kept. -/
theorem transfer_spec_witness :
    execute_transfer api0 st1 { sender := "alice", funds := [] } "zzz" "frank" =
      .err (.NameNotExists "zzz") st1 ∧
    execute_transfer api0 st1 { sender := "eve", funds := [] } "alice-1" "frank" =
      .err .Unauthorized st1 ∧
    execute_transfer api0 st1 { sender := "alice", funds := [] } "alice-1" "frank" =
      .ok (setRecord st1 "alice-1" { owner := "frank", bio := "hi", website := "" }) :=
  ⟨(transfer_spec api0 st1 { sender := "alice", funds := [] } "zzz" "frank" cfg0 "frank"
      rfl rfl rfl).1 rfl,
   (transfer_spec api0 st1 { sender := "eve", funds := [] } "alice-1" "frank" cfg0 "frank"
      rfl rfl rfl).2.1 rec0 rfl (by decide),
   (transfer_spec api0 st1 { sender := "alice", funds := [] } "alice-1" "frank" cfg0 "frank"
      rfl rfl rfl).2.2 rec0 rfl rfl⟩

/-- C6: in `execute_edit`, once the fee gate has passed and the record has
been read inside the atomic update, the ownership check comes strictly
before the bio/website length checks: a caller other than the record owner
gets `Unauthorized` whatever the field lengths; the owner with an
over-long field gets the corresponding `*TooLong` error, the stored record
unchanged; on success `bio` and `website` are replaced and `owner` is
untouched. -/
theorem edit_auth_before_length (s : ContractState) (info : MessageInfo)
    (name bio website : String) (cfg : Config) (r : NameRecord)
    (hcfg : s.config = some cfg)
    (hfee : assert_sent_sufficient_coin info.funds cfg.edit_price = .ok ())
    (hrec : s.name_resolver name = some r) :
    (info.sender ≠ r.owner →
      execute_edit s info name bio website = .err .Unauthorized s) ∧
    (info.sender = r.owner → rustLen bio > MAX_BIO_LENGTH →
      execute_edit s info name bio website =
        .err (.BioTooLong (rustLen bio) MAX_BIO_LENGTH) s) ∧
    (info.sender = r.owner → rustLen bio ≤ MAX_BIO_LENGTH →
      rustLen website > MAX_WEBSITE_LENGTH →
      execute_edit s info name bio website =
        .err (.WebsiteTooLong (rustLen website) MAX_WEBSITE_LENGTH) s) ∧
    (info.sender = r.owner → rustLen bio ≤ MAX_BIO_LENGTH →
      rustLen website ≤ MAX_WEBSITE_LENGTH →
      execute_edit s info name bio website =
        .ok (setRecord s name { owner := r.owner, bio := bio, website := website })) := by
  refine ⟨?_, ?_, ?_, ?_⟩
  · intro hne
    simp only [execute_edit, hcfg, hfee, hrec, if_pos hne]
  · intro heq hbio
    simp only [execute_edit, hcfg, hfee, hrec, if_neg (not_not_intro heq), if_pos hbio]
  · intro heq hbio hweb
    simp only [execute_edit, hcfg, hfee, hrec, if_neg (not_not_intro heq),
      if_neg (by omega : ¬ rustLen bio > MAX_BIO_LENGTH), if_pos hweb]
  · intro heq hbio hweb
    simp only [execute_edit, hcfg, hfee, hrec, if_neg (not_not_intro heq),
      if_neg (by omega : ¬ rustLen bio > MAX_BIO_LENGTH),
      if_neg (by omega : ¬ rustLen website > MAX_WEBSITE_LENGTH)]

set_option maxRecDepth 8192 in
/-- Witness for C6: on `st1` (edit is free in `cfg0`): a non-owner with an
over-long bio still gets `Unauthorized`; the owner with a 201-character bio
gets `BioTooLong`; the owner with a 101-character website gets
`WebsiteTooLong`; the owner within bounds gets the updated record with the
same owner. -/
theorem edit_auth_before_length_witness :
    execute_edit st1 { sender := "eve", funds := [] } "alice-1" longBio "w" =
      .err .Unauthorized st1 ∧
    execute_edit st1 { sender := "alice", funds := [] } "alice-1" longBio "w" =
      .err (.BioTooLong 201 200) st1 ∧
    execute_edit st1 { sender := "alice", funds := [] } "alice-1" "b" longWebsite =
      .err (.WebsiteTooLong 101 100) st1 ∧
    execute_edit st1 { sender := "alice", funds := [] } "alice-1" "new-bio" "new-site" =
      .ok (setRecord st1 "alice-1" { owner := "alice", bio := "new-bio", website := "new-site" }) :=
  ⟨(edit_auth_before_length st1 { sender := "eve", funds := [] } "alice-1" longBio "w"
      cfg0 rec0 rfl rfl rfl).1 (by decide),
   (edit_auth_before_length st1 { sender := "alice", funds := [] } "alice-1" longBio "w"
      cfg0 rec0 rfl rfl rfl).2.1 rfl (by decide),
   (edit_auth_before_length st1 { sender := "alice", funds := [] } "alice-1" "b" longWebsite
      cfg0 rec0 rfl rfl rfl).2.2.1 rfl (by decide) (by decide),
   (edit_auth_before_length st1 { sender := "alice", funds := [] } "alice-1" "new-bio" "new-site"
      cfg0 rec0 rfl rfl rfl).2.2.2 rfl (by decide) (by decide)⟩

/-- C7: `execute_edit_conf` runs the fee gate against the attached funds
and the *currently stored* `transfer_price`, before the owner check: when
that gate fails, its error surfaces unchanged for every caller (owner or
not, so no `Unauthorized` can pre-empt it), whatever new prices the request
carries; and when the stored `transfer_price` is unset the gate passes with
any funds, regardless of the stored purchase/edit prices or of the new
`transfer_price` in the request. -/
theorem edit_conf_fee_gate (s : ContractState) (info : MessageInfo)
    (purchase_price transfer_price edit_price : Option Coin) (cfg : Config)
    (hcfg : s.config = some cfg) :
    (∀ e : ContractError,
      assert_sent_sufficient_coin info.funds cfg.transfer_price = .error e →
      execute_edit_conf s info purchase_price transfer_price edit_price = .err e s) ∧
    (cfg.transfer_price = none → cfg.owner = info.sender →
      execute_edit_conf s info purchase_price transfer_price edit_price =
        .ok (setConfig s
          { cfg with
              purchase_price := purchase_price,
              transfer_price := transfer_price, edit_price := edit_price })) := by
  constructor
  · intro e hfail
    simp only [execute_edit_conf, hcfg, hfail]
  · intro htp howner
    have hfee : assert_sent_sufficient_coin info.funds cfg.transfer_price = .ok () := by
      rw [htp]
      rfl
    simp only [execute_edit_conf, hcfg, hfee, if_neg (not_not_intro howner)]

/-- Witness for C7: on `st2` (stored `transfer_price` = 10 `uatom`) a
non-owner with no funds gets the fee-gate error, not `Unauthorized`, even
though the request's new `transfer_price` is `none`; and on `st0` (stored
`transfer_price` unset, `purchase_price` = 10 `uatom`) the owner passes the
gate with no funds attached. -/
theorem edit_conf_fee_gate_witness :
    execute_edit_conf st2 { sender := "eve", funds := [] } none none none =
      .err .InsufficientFunds st2 ∧
    execute_edit_conf st0 { sender := "admin", funds := [] }
        (some { denom := "uatom", amount := 999 }) none none =
      .ok (setConfig st0
        { cfg0 with
            purchase_price := some { denom := "uatom", amount := 999 },
            transfer_price := none, edit_price := none }) :=
  ⟨(edit_conf_fee_gate st2 { sender := "eve", funds := [] } none none none cfg1 rfl).1
      .InsufficientFunds rfl,
   (edit_conf_fee_gate st0 { sender := "admin", funds := [] }
      (some { denom := "uatom", amount := 999 }) none none cfg0 rfl).2 rfl rfl⟩

/-- C8: a successful `edit_conf` (fee gate passed, caller is the registry
owner) stores exactly the three requested prices — `none` clears a price to
free, nothing is left at its prior value — and keeps the owner and the
whole record table unchanged; a caller other than the registry owner (fee
gate passed) gets `Unauthorized` with the configuration unchanged. -/
theorem edit_conf_update_spec (s : ContractState) (info : MessageInfo)
    (purchase_price transfer_price edit_price : Option Coin) (cfg : Config)
    (hcfg : s.config = some cfg)
    (hfee : assert_sent_sufficient_coin info.funds cfg.transfer_price = .ok ()) :
    (cfg.owner ≠ info.sender →
      execute_edit_conf s info purchase_price transfer_price edit_price =
        .err .Unauthorized s) ∧
    (cfg.owner = info.sender →
      execute_edit_conf s info purchase_price transfer_price edit_price =
        .ok { config := some { owner := cfg.owner, purchase_price := purchase_price,
                               transfer_price := transfer_price, edit_price := edit_price },
              name_resolver := s.name_resolver }) := by
  constructor
  · intro hne
    simp only [execute_edit_conf, hcfg, hfee, if_pos hne]
  · intro howner
    simp only [execute_edit_conf, hcfg, hfee, if_neg (not_not_intro howner)]
    rfl

/-- Witness for C8: on `st1` (transfer is free, so the gate passes with no
funds): the owner `"admin"` replaces all three prices — the purchase price
that was 10 `uatom` is cleared by `none` — keeping owner and records; the
non-owner `"eve"` gets `Unauthorized`. -/
theorem edit_conf_update_spec_witness :
    execute_edit_conf st1 { sender := "eve", funds := [] }
        none none (some { denom := "uatom", amount := 7 }) = .err .Unauthorized st1 ∧
    execute_edit_conf st1 { sender := "admin", funds := [] }
        none none (some { denom := "uatom", amount := 7 }) =
      .ok { config := some { owner := "admin", purchase_price := none,
                             transfer_price := none,
                             edit_price := some { denom := "uatom", amount := 7 } },
            name_resolver := st1.name_resolver } :=
  ⟨(edit_conf_update_spec st1 { sender := "eve", funds := [] }
      none none (some { denom := "uatom", amount := 7 }) cfg0 rfl rfl).1 (by decide),
   (edit_conf_update_spec st1 { sender := "admin", funds := [] }
      none none (some { denom := "uatom", amount := 7 }) cfg0 rfl rfl).2 rfl⟩

/-! Reachability: states produced by `instantiate` followed by any sequence
of execute requests. -/

/-- One external execute request: the host-provided address validator and
contract balance for that request, the caller info, and the message. -/
structure Step where
  api : String → Option Addr
  balance : List Coin
  info : MessageInfo
  msg : ExecuteMsg

/-- The stored state after one request: the post-state of the handler (on
error the handlers return the pre-state, so this is also the state after
the host reverts a failed request). -/
def stepState (s : ContractState) (st : Step) : ContractState :=
  (execute st.api st.balance s st.info st.msg).state

/-- The stored state after a sequence of execute requests. -/
def runSteps (s : ContractState) (steps : List Step) : ContractState :=
  steps.foldl stepState s

/-- Every key present in the record table is a name accepted by
`validate_name`. -/
def ValidKeys (s : ContractState) : Prop :=
  ∀ (k : String) (r : NameRecord), s.name_resolver k = some r → validate_name k = .ok ()

theorem validKeys_setRecord (s : ContractState) (key : String) (r : NameRecord)
    (hs : ValidKeys s) (hkey : validate_name key = .ok ()) :
    ValidKeys (setRecord s key r) := by
  intro k r' h
  unfold setRecord at h
  dsimp only at h
  by_cases hk : k = key
  · subst hk
    exact hkey
  · rw [if_neg hk] at h
    exact hs k r' h

theorem validKeys_setConfig (s : ContractState) (c : Config)
    (hs : ValidKeys s) : ValidKeys (setConfig s c) :=
  fun k r h => hs k r h

theorem validKeys_register (s : ContractState) (info : MessageInfo)
    (name bio website : String) (hs : ValidKeys s) :
    ValidKeys (execute_register s info name bio website).state := by
  unfold execute_register
  dsimp only
  split
  · exact hs
  rename_i u heq
  split
  · exact hs
  split
  · exact hs
  split
  · exact hs
  split
  · exact hs
  split
  · exact hs
  · refine validKeys_setRecord s name _ hs ?_
    cases u
    exact heq

theorem validKeys_transfer (api : String → Option Addr) (s : ContractState)
    (info : MessageInfo) (name to_addr : String) (hs : ValidKeys s) :
    ValidKeys (execute_transfer api s info name to_addr).state := by
  unfold execute_transfer
  split
  · exact hs
  split
  · exact hs
  split
  · exact hs
  split
  · rename_i record heqr
    split
    · exact hs
    · exact validKeys_setRecord s name _ hs (hs name record heqr)
  · exact hs

theorem validKeys_edit (s : ContractState) (info : MessageInfo)
    (name bio website : String) (hs : ValidKeys s) :
    ValidKeys (execute_edit s info name bio website).state := by
  unfold execute_edit
  dsimp only
  split
  · exact hs
  split
  · exact hs
  split
  · rename_i record heqr
    split
    · exact hs
    split
    · exact hs
    split
    · exact hs
    · exact validKeys_setRecord s name _ hs (hs name record heqr)
  · exact hs

theorem validKeys_edit_conf (s : ContractState) (info : MessageInfo)
    (purchase_price transfer_price edit_price : Option Coin) (hs : ValidKeys s) :
    ValidKeys (execute_edit_conf s info purchase_price transfer_price edit_price).state := by
  unfold execute_edit_conf
  split
  · exact hs
  split
  · exact hs
  split
  · exact hs
  · exact validKeys_setConfig s _ hs

theorem validKeys_refund (balance : List Coin) (s : ContractState)
    (info : MessageInfo) (hs : ValidKeys s) :
    ValidKeys (execute_refund balance s info).state := by
  unfold execute_refund
  split
  · exact hs
  split
  · exact hs
  · exact hs

theorem validKeys_step (s : ContractState) (st : Step) (hs : ValidKeys s) :
    ValidKeys (stepState s st) := by
  unfold stepState execute
  cases hm : st.msg with
  | Register name bio website => exact validKeys_register s st.info name bio website hs
  | Transfer name to_addr => exact validKeys_transfer st.api s st.info name to_addr hs
  | Refund => exact validKeys_refund st.balance s st.info hs
  | Edit name bio website => exact validKeys_edit s st.info name bio website hs
  | Editconf pp tp ep => exact validKeys_edit_conf s st.info pp tp ep hs

theorem validKeys_runSteps (steps : List Step) (s : ContractState)
    (hs : ValidKeys s) : ValidKeys (runSteps s steps) := by
  induction steps generalizing s with
  | nil => exact hs
  | cons st rest ih => exact ih (stepState s st) (validKeys_step s st hs)

theorem validKeys_instantiate_empty (api : String → Option Addr)
    (info : MessageInfo) (msg : InstantiateMsg) :
    ValidKeys (instantiate api emptyState info msg) := by
  intro k r h
  exact Option.noConfusion h

/-- C10 (implicit invariant): in every state reachable from instantiation
on empty storage by any sequence of execute requests, every key present in
the name-record table is a name accepted by `validate_name` (byte length
3–30, alphabet of ASCII lowercase letters, digits and hyphen): register is
the only operation that inserts a key and validates first, while transfer
and edit only rewrite keys that are already present. -/
theorem reachable_keys_validated (api : String → Option Addr)
    (info : MessageInfo) (msg : InstantiateMsg) (steps : List Step) :
    ValidKeys (runSteps (instantiate api emptyState info msg) steps) :=
  validKeys_runSteps steps (instantiate api emptyState info msg)
    (validKeys_instantiate_empty api info msg)

/-- C10 evaluated on a concrete trace: after instantiating and registering
`"abc"`, every stored key passes `validate_name`. -/
theorem reachable_keys_validated_witness :
    ValidKeys (runSteps
      (instantiate api0 emptyState { sender := "creator", funds := [] }
        { admin := none, purchase_price := none, transfer_price := none, edit_price := none })
      [{ api := api0, balance := [], info := { sender := "creator", funds := [] }
       , msg := .Register "abc" "bio" "site" }]) :=
  reachable_keys_validated api0 { sender := "creator", funds := [] }
    { admin := none, purchase_price := none, transfer_price := none, edit_price := none }
    [{ api := api0, balance := [], info := { sender := "creator", funds := [] }
     , msg := .Register "abc" "bio" "site" }]

section Sanity

example : validate_name "abc" = .ok () := by decide
example : validate_name "ab" = .error (.NameTooShort 2 3) := by decide
example : validate_name "" = .error (.NameTooShort 0 3) := by decide
example : validate_name "aBc" = .error (.InvalidCharacter 'B') := by decide
example : validate_name "ab€xy" = .error (.InvalidCharacter '€') := by decide
example : rustLen "ab€xy" = 7 := by decide
example : assert_sent_sufficient_coin [] none = .ok () := by decide
example : assert_sent_sufficient_coin [⟨"uatom", 5⟩] (some ⟨"uatom", 10⟩) =
    .error .InsufficientFunds := by decide
example : assert_sent_sufficient_coin [⟨"uluna", 10⟩] (some ⟨"uatom", 10⟩) =
    .error .InsufficientFunds := by decide
example : assert_sent_sufficient_coin [⟨"uatom", 15⟩] (some ⟨"uatom", 10⟩) =
    .ok () := by decide

end Sanity

end HuahuaName
